import Mathlib

/-!
Shallow embedding of the recommendation engine of the OnlineBookExchange
repository (backend/app/services/recommendation_engine.py) together with the
SQLAlchemy model columns it reads (backend/app/models/book.py and
backend/app/models/user_interaction.py).

Modelling conventions:
* Machine floats are modelled as exact rationals (ℚ).
* The database is a snapshot value `DB`: the list order of `DB.books` and
  `DB.interactions` stands for the incidental row-iteration order of
  unordered SQL queries.
* Python dicts are association lists built with `upsert` / `tallyAdd`
  (insertion order preserved, later assignments to the same key update in
  place), matching CPython dict semantics.
* `sorted(..., reverse=True)` (a stable descending sort) is embedded as
  `List.insertionSort` with the relation `fun a b => key b ≤ key a`, which is
  the classical stable insertion sort: ties keep their original order.
* The sklearn TF-IDF step is the one external-library boundary: the fitted
  matrix rows are a parameter `rows : Nat → List ℚ` giving, per corpus
  position, the L2-normalised TF-IDF row of that document.  sklearn's
  `cosine_similarity` of L2-normalised rows is their plain dot product, so
  `simEntry` is `dotQ` of two rows.  Facts that need the TF-IDF structure
  (non-negative entries, unit-or-smaller norm) take them as hypotheses.
* `Book.query.get` / `find?` works on all books (primary-key lookup ignores
  the availability filter); primary-key uniqueness is the `Nodup` hypothesis.
* The configured backend is MySQL (backend/config.py); MySQL rejects a
  negative LIMIT, so the SQL-level fallback query is fallible and the
  popularity fallback returns `Option` (`none` = the query raises).
  The pure-Python slice `l[:n]` is total and is embedded by `pyTake`.
-/

namespace OBX

/-- Columns of the books table read by the engine (book.py); columns the
engine never touches (isbn, image_url, timestamps) are omitted. -/
structure Book where
  id : Nat
  user_id : Nat
  title : String
  author : String
  category : String
  condition : String
  description : Option String
  available : Bool
deriving DecidableEq, Repr

/-- Columns of the user_interactions table read by the engine
(user_interaction.py); created_at is never read by the engine. -/
structure UserInteraction where
  id : Nat
  user_id : Nat
  book_id : Nat
  interaction_type : String
deriving DecidableEq, Repr

/-- Database snapshot consumed by one engine call; list order models the
incidental row order of unordered queries. -/
structure DB where
  books : List Book
  interactions : List UserInteraction
deriving Repr

/-- Result of build_user_profile when the user has interactions; the Python
code returns the empty dict (falsy) for a user without interactions, which is
modelled as `none` at the call sites. -/
structure UserProfile where
  categories : List (String × ℚ)
  authors : List (String × ℚ)
  interaction_count : Nat
deriving DecidableEq, Repr

/-- One entry of the list returned by generate_recommendations: the book row
(standing for book.to_dict()), the rounded relevance score and the reason. -/
structure Recommendation where
  book : Book
  relevance_score : ℚ
  recommendation_reason : String
deriving DecidableEq, Repr

/-- Fitted state after fit_tfidf_model: the parallel index book_ids built by
build_corpus, and the TF-IDF matrix rows by corpus position (already
L2-normalised, as sklearn guarantees). -/
structure Model where
  book_ids : List Nat
  rows : Nat → List ℚ

/-- Dot product of two rational vectors, truncated at the shorter one. -/
def dotQ : List ℚ → List ℚ → ℚ
  | x :: xs, y :: ys => x * y + dotQ xs ys
  | _, _ => 0

/-- Python dict assignment d[k] = v on an association list: update the value
in place when the key is present, append otherwise. -/
def upsert {β : Type} (d : List (Nat × β)) (k : Nat) (v : β) : List (Nat × β) :=
  if d.any (fun p => p.1 == k) then
    d.map (fun p => if p.1 == k then (p.1, v) else p)
  else d ++ [(k, v)]

/-- Python defaultdict(float) accumulation d[k] += w on an association list. -/
def tallyAdd (d : List (String × ℚ)) (k : String) (w : ℚ) : List (String × ℚ) :=
  if d.any (fun p => p.1 == k) then
    d.map (fun p => if p.1 == k then (p.1, p.2 + w) else p)
  else d ++ [(k, w)]

/-- Python slice l[:n] including its negative-index semantics: a negative n
drops the last |n| elements (clamped at the empty list). -/
def pyTake {α : Type} (n : Int) (l : List α) : List α :=
  if 0 ≤ n then l.take n.toNat else l.take (l.length - (-n).toNat)

/-- Python list.index for an element known to be present (first position). -/
def pyIndex (x : Nat) : List Nat → Nat
  | [] => 0
  | y :: ys => if y == x then 0 else pyIndex x ys + 1

/-- Python round(x, 3). Mathlib round is round-half-up while CPython uses
round-half-even on binary floats; the two agree except on exact multiples of
1/2000, and no claim below depends on that boundary. -/
def round3 (q : ℚ) : ℚ := ((round (q * 1000) : ℤ) : ℚ) / 1000

/-- Stable descending sort by a rational key: embedding of Python
sorted(items, key=score, reverse=True), which is stable (ties keep the
original order). -/
def sortByScoreDesc (l : List (Nat × ℚ)) : List (Nat × ℚ) :=
  l.insertionSort (fun a b => b.2 ≤ a.2)

/-- Stable descending sort of (book, interaction count) pairs: embedding of
the ORDER BY interaction_count DESC of the fallback query (the database tie
order is unspecified; the snapshot row order is used, as for every other
unordered query in this model). -/
def sortByCountDesc (l : List (Book × Nat)) : List (Book × Nat) :=
  l.insertionSort (fun a b => b.2 ≤ a.2)

/-- UserInteraction.query.filter_by(user_id=user_id).all(). -/
def userInteractions (db : DB) (u : Nat) : List UserInteraction :=
  db.interactions.filter (fun i => i.user_id == u)

/-- Set of book ids the user has interacted with (any kind), engine lines
248-249. -/
def interactedIds (db : DB) (u : Nat) : List Nat :=
  (userInteractions db u).map (·.book_id)

/-- Corpus index built by build_corpus: ids of the available books in
snapshot order, paired with the externally fitted TF-IDF rows. -/
def fitModel (db : DB) (rows : Nat → List ℚ) : Model :=
  { book_ids := (db.books.filter (fun b => b.available)).map Book.id
    rows := rows }

/-- Cosine similarity matrix entry (i, j): dot product of the L2-normalised
TF-IDF rows at corpus positions i and j (compute_similarity_matrix). -/
def simEntry (m : Model) (i j : Nat) : ℚ := dotQ (m.rows i) (m.rows j)

/-- calculate_content_similarity (engine lines 198-224): for each target id
present in the corpus and different from the reference book, record the
similarity-matrix entry in a dict keyed by target id. -/
def calculate_content_similarity (m : Model) (bid : Nat) (targets : List Nat) :
    List (Nat × ℚ) :=
  if m.book_ids.contains bid then
    if m.book_ids.isEmpty then []
    else
      targets.foldl
        (fun sims t =>
          if m.book_ids.contains t && t != bid then
            upsert sims t (simEntry m (pyIndex bid m.book_ids) (pyIndex t m.book_ids))
          else sims)
        []
  else []

/-- interaction_weights lookup with default 1.0 (engine lines 155-161). -/
def interactionWeight (t : String) : ℚ :=
  if t = "view" then 1
  else if t = "like" then 2
  else if t = "request" then 3
  else if t = "search" then 1/2
  else 1

/-- Sum of the values of a tally. -/
def sumVals (d : List (String × ℚ)) : ℚ := (d.map Prod.snd).sum

/-- Normalisation of a tally (engine lines 178-189): divide every value by
the total, where a zero total is replaced by 1 (the Python `or 1`). -/
def normalizeTally (d : List (String × ℚ)) : List (String × ℚ) :=
  let total := if sumVals d = 0 then 1 else sumVals d
  d.map (fun p => (p.1, p.2 / total))

/-- One step of the profile loop (engine lines 167-176): resolve the book by
primary key, skip silently when it no longer exists, otherwise accumulate the
interaction weight into the category and author tallies. -/
def profileStep (db : DB) (t : List (String × ℚ) × List (String × ℚ))
    (i : UserInteraction) : List (String × ℚ) × List (String × ℚ) :=
  match db.books.find? (fun b => b.id == i.book_id) with
  | none => t
  | some book =>
      let w := interactionWeight i.interaction_type
      (tallyAdd t.1 book.category w, tallyAdd t.2 book.author w)

/-- build_user_profile (engine lines 138-196); `none` models the falsy empty
dict returned for a user without interactions. -/
def build_user_profile (db : DB) (u : Nat) : Option UserProfile :=
  let inters := userInteractions db u
  if inters.isEmpty then none
  else
    let t := inters.foldl (profileStep db) ([], [])
    some { categories := normalizeTally t.1
           authors := normalizeTally t.2
           interaction_count := inters.length }

/-- The _calculate_user_content_similarity helper (engine lines 298-325):
mean similarity between a book and the books the user has liked or requested,
0 when that set or the similarity dict is empty. -/
def user_content_similarity (db : DB) (rows : Nat → List ℚ) (u : Nat)
    (bid : Nat) : ℚ :=
  let liked := db.interactions.filter
    (fun i => i.user_id == u &&
      (i.interaction_type == "like" || i.interaction_type == "request"))
  if liked.isEmpty then 0
  else
    let likedIds := liked.map (·.book_id)
    let sims := calculate_content_similarity (fitModel db rows) bid likedIds
    if sims.isEmpty then 0
    else (sims.map Prod.snd).sum / (sims.length : ℚ)

/-- Per-candidate score of the personalised path (engine lines 264-275):
0.4 * category weight + 0.3 * author weight + 0.3 * mean liked-similarity. -/
def scoreFor (db : DB) (rows : Nat → List ℚ) (u : Nat) (p : UserProfile)
    (b : Book) : ℚ :=
  (p.categories.lookup b.category).getD 0 * 0.4
    + (p.authors.lookup b.author).getD 0 * 0.3
    + user_content_similarity db rows u b.id * 0.3

/-- Candidate query of the personalised path (engine lines 251-256):
available books not owned by the user and not already interacted with. -/
def candidates (db : DB) (u : Nat) : List Book :=
  db.books.filter
    (fun b => b.available && b.user_id != u && !((interactedIds db u).contains b.id))

/-- The book_scores dict (engine lines 261-275), keyed by candidate id in
candidate order. -/
def bookScores (db : DB) (rows : Nat → List ℚ) (u : Nat) (p : UserProfile) :
    List (Nat × ℚ) :=
  (candidates db u).foldl (fun d b => upsert d b.id (scoreFor db rows u p b)) []

/-- The _generate_reason helper (engine lines 327-353). -/
def generate_reason (p : UserProfile) (b : Book) : String :=
  let rs :=
    (if (p.categories.lookup b.category).getD 0 > 0.1 then
      ["you\x27ve shown interest in " ++ b.category ++ " books"] else [])
    ++ (if (p.authors.lookup b.author).getD 0 > 0.1 then
      ["you\x27ve liked books by " ++ b.author] else [])
  let rs := if rs.isEmpty then ["based on your reading preferences"] else rs
  "Recommended because " ++ String.intercalate " and " rs

/-- Number of interaction rows joined to a book by the fallback query
(COUNT over the outer join on book_id, all users and kinds). -/
def popCount (db : DB) (b : Book) : Nat :=
  (db.interactions.filter (fun i => i.book_id == b.id)).length

/-- The _get_popular_books fallback (engine lines 355-382): available books
with their interaction counts, ordered by count descending, LIMIT n.  MySQL
(the configured backend) rejects a negative LIMIT, so a negative n makes the
query raise, modelled as `none`. -/
def get_popular_books (db : DB) (n : Int) : Option (List Recommendation) :=
  if n < 0 then none
  else
    let avail := db.books.filter (fun b => b.available)
    let pairs := avail.map (fun b => (b, popCount db b))
    let sorted := sortByCountDesc pairs
    some ((sorted.take n.toNat).map (fun pc =>
      { book := pc.1
        relevance_score := 1/2
        recommendation_reason :=
          "Popular book with " ++ toString pc.2 ++ " interactions" }))

/-- Personalised branch of generate_recommendations (engine lines 247-296):
score the candidates, stable-sort descending by score, take the Python slice
[:n], then refetch each book by primary key and format the entry. -/
def personalized (db : DB) (rows : Nat → List ℚ) (u : Nat) (n : Int)
    (p : UserProfile) : List Recommendation :=
  if (candidates db u).isEmpty then []
  else
    let scores := bookScores db rows u p
    let sorted := sortByScoreDesc scores
    let top := (pyTake n sorted).map Prod.fst
    top.filterMap (fun bid =>
      (db.books.find? (fun b => b.id == bid)).map (fun book =>
        { book := book
          relevance_score := round3 ((scores.lookup bid).getD 0)
          recommendation_reason := generate_reason p book }))

/-- generate_recommendations (engine lines 226-296): refit, build the user
profile, fall back to popular books when the profile is empty or the corpus
is empty, otherwise run the personalised path. -/
def generate_recommendations (db : DB) (rows : Nat → List ℚ) (u : Nat)
    (n : Int) : Option (List Recommendation) :=
  let m := fitModel db rows
  match build_user_profile db u with
  | none => get_popular_books db n
  | some p =>
      if m.book_ids.isEmpty then get_popular_books db n
      else some (personalized db rows u n p)

/-- Well-formedness of the external TF-IDF rows: sklearn TF-IDF entries are
non-negative and each row is L2-normalised (unit norm, or the zero row for a
document with no surviving term), hence has squared norm at most 1. -/
def rowBounds (rows : Nat → List ℚ) : Prop :=
  ∀ i, (∀ x ∈ rows i, 0 ≤ x) ∧ dotQ (rows i) (rows i) ≤ 1

/-! Concrete snapshots used by counterexamples and witnesses. -/

/-- TF-IDF rows of an all-zero model (every document vector empty). -/
def exRows0 : Nat → List ℚ := fun _ => []

/-- TF-IDF rows where every document has the same unit vector. -/
def exRows1 : Nat → List ℚ := fun _ => [1]

/-- Snapshot with a single available book owned by user 1 and no
interactions at all. -/
def dbSelf : DB := ⟨[⟨10, 1, "T", "A", "Fiction", "good", none, true⟩], []⟩

/-- Snapshot where user 1 has one view interaction on book 20 and two other
available candidate books exist. -/
def dbNeg : DB :=
  ⟨[⟨20, 3, "TT", "AA", "Fiction", "good", none, true⟩,
    ⟨30, 2, "TB", "AB", "Sci", "good", none, true⟩,
    ⟨31, 2, "TC", "AC", "Hist", "good", none, true⟩],
   [⟨1, 1, 20, "view"⟩]⟩

/-- Snapshot with two equal-score candidates in repository order id 5 before
id 4; user 1's only interaction points at a deleted book. -/
def dbTieA : DB :=
  ⟨[⟨5, 2, "T5", "A5", "X", "good", none, true⟩,
    ⟨4, 2, "T4", "A4", "Y", "good", none, true⟩],
   [⟨1, 1, 99, "view"⟩]⟩

/-- The same data as dbTieA with the two book rows in the opposite
repository iteration order. -/
def dbTieB : DB :=
  ⟨[⟨4, 2, "T4", "A4", "Y", "good", none, true⟩,
    ⟨5, 2, "T5", "A5", "X", "good", none, true⟩],
   [⟨1, 1, 99, "view"⟩]⟩

/-- Snapshot with three available books with 2, 1 and 0 interactions from
other users; user 7 has no interactions (Scenario A shape). -/
def dbPop : DB :=
  ⟨[⟨1, 2, "T1", "A1", "X", "good", none, true⟩,
    ⟨2, 3, "T2", "A2", "Y", "good", none, true⟩,
    ⟨3, 4, "T3", "A3", "Z", "good", none, true⟩],
   [⟨1, 5, 3, "view"⟩, ⟨2, 5, 3, "like"⟩, ⟨3, 6, 2, "view"⟩]⟩

/-- Scenario B snapshot: user 1 has a single like on the Fiction book 10;
book 20 is an available Fiction candidate by another author. -/
def dbFiction : DB :=
  ⟨[⟨10, 2, "T10", "AuthX", "Fiction", "good", none, true⟩,
    ⟨20, 3, "T20", "AuthY", "Fiction", "good", none, true⟩],
   [⟨1, 1, 10, "like"⟩]⟩

/-- Snapshot with two available books (ids 1 and 2) and no interactions. -/
def dbTwo : DB :=
  ⟨[⟨1, 2, "T1", "A1", "X", "good", none, true⟩,
    ⟨2, 3, "T2", "A2", "Y", "good", none, true⟩], []⟩

/-- Snapshot whose only book is unavailable: the corpus is empty. -/
def dbNoCorpus : DB := ⟨[⟨1, 1, "T", "A", "C", "good", none, false⟩], []⟩

/-- Snapshot where user 1's only interaction references the deleted book 99;
book 5 is an available candidate. -/
def dbMissing : DB :=
  ⟨[⟨5, 2, "T5", "A5", "X", "good", none, true⟩], [⟨1, 1, 99, "view"⟩]⟩

/-- The single recommendation generate_recommendations produces on dbMissing
for user 1 (empty-weight profile, so the generic reason is attached). -/
def exRecMissing : Recommendation :=
  ⟨⟨5, 2, "T5", "A5", "X", "good", none, true⟩, 0,
   "Recommended because based on your reading preferences"⟩

/-- Profile of user 1 in dbFiction: one like on a Fiction book by AuthX. -/
def profFiction : UserProfile := ⟨[("Fiction", 1)], [("AuthX", 1)], 1⟩

/-- The single recommendation generate_recommendations produces on dbFiction
for user 1 (Scenario B: category weight 1 on Fiction, score 0.4). -/
def exRecFiction : Recommendation :=
  ⟨⟨20, 3, "T20", "AuthY", "Fiction", "good", none, true⟩, 2/5,
   "Recommended because you\x27ve shown interest in Fiction books"⟩

/-! Basic lemmas about the arithmetic and dictionary helpers. -/

theorem dotQ_nil (w : List ℚ) : dotQ [] w = 0 := by
  cases w <;> rfl

theorem dotQ_nil_right (v : List ℚ) : dotQ v [] = 0 := by
  cases v <;> rfl

theorem dotQ_cons (x y : ℚ) (xs ys : List ℚ) :
    dotQ (x :: xs) (y :: ys) = x * y + dotQ xs ys := rfl

theorem dotQ_comm (v w : List ℚ) : dotQ v w = dotQ w v := by
  induction v generalizing w with
  | nil => rw [dotQ_nil, dotQ_nil_right]
  | cons x xs ih =>
      cases w with
      | nil => rw [dotQ_nil, dotQ_nil_right]
      | cons y ys => rw [dotQ_cons, dotQ_cons, ih, mul_comm]

theorem dotQ_nonneg {v w : List ℚ} (hv : ∀ x ∈ v, 0 ≤ x)
    (hw : ∀ y ∈ w, 0 ≤ y) : 0 ≤ dotQ v w := by
  induction v generalizing w with
  | nil => rw [dotQ_nil]
  | cons x xs ih =>
      cases w with
      | nil => rw [dotQ_nil_right]
      | cons y ys =>
          rw [dotQ_cons]
          have hx : 0 ≤ x := hv x (List.mem_cons_self _ _)
          have hy : 0 ≤ y := hw y (List.mem_cons_self _ _)
          have hrest : 0 ≤ dotQ xs ys :=
            ih (fun a ha => hv a (List.mem_cons_of_mem _ ha))
              (fun a ha => hw a (List.mem_cons_of_mem _ ha))
          have := mul_nonneg hx hy
          linarith

theorem dotQ_self_nonneg (v : List ℚ) : 0 ≤ dotQ v v := by
  induction v with
  | nil => rw [dotQ_nil]
  | cons x xs ih =>
      rw [dotQ_cons]
      have := mul_self_nonneg x
      linarith

theorem dotQ_sq_le (v w : List ℚ) :
    dotQ v w ^ 2 ≤ dotQ v v * dotQ w w := by
  induction v generalizing w with
  | nil =>
      rw [dotQ_nil, dotQ_nil]
      simp
  | cons x xs ih =>
      cases w with
      | nil =>
          rw [dotQ_nil_right, dotQ_nil_right]
          simp
      | cons y ys =>
          rw [dotQ_cons, dotQ_cons, dotQ_cons]
          have hA : 0 ≤ dotQ xs xs := dotQ_self_nonneg xs
          have hB : 0 ≤ dotQ ys ys := dotQ_self_nonneg ys
          have hD : dotQ xs ys ^ 2 ≤ dotQ xs xs * dotQ ys ys := ih ys
          set A := dotQ xs xs
          set B := dotQ ys ys
          set D := dotQ xs ys
          have ht : 0 ≤ x ^ 2 * B + A * y ^ 2 := by positivity
          have h2 : (2 * x * y * D) ^ 2 ≤ (x ^ 2 * B + A * y ^ 2) ^ 2 := by
            nlinarith [sq_nonneg (x ^ 2 * B - A * y ^ 2),
              mul_nonneg (sq_nonneg (x * y)) (sub_nonneg.mpr hD)]
          have h3 : 2 * x * y * D ≤ x ^ 2 * B + A * y ^ 2 := by
            nlinarith [h2, ht]
          nlinarith [h3, hD]

theorem dotQ_le_one {v w : List ℚ} (hv : ∀ x ∈ v, 0 ≤ x)
    (hw : ∀ y ∈ w, 0 ≤ y) (hv1 : dotQ v v ≤ 1) (hw1 : dotQ w w ≤ 1) :
    dotQ v w ≤ 1 := by
  have h0 : 0 ≤ dotQ v w := dotQ_nonneg hv hw
  have hsq : dotQ v w ^ 2 ≤ 1 := by
    have := dotQ_sq_le v w
    nlinarith [dotQ_self_nonneg v, dotQ_self_nonneg w]
  nlinarith [h0, hsq]

theorem mem_upsert {β : Type} {d : List (Nat × β)} {k : Nat} {v : β}
    {p : Nat × β} (hp : p ∈ upsert d k v) : p ∈ d ∨ p.2 = v := by
  unfold upsert at hp
  split at hp
  · obtain ⟨q, hq, hqe⟩ := List.mem_map.1 hp
    by_cases h : q.1 == k
    · right; rw [if_pos h] at hqe; rw [← hqe]
    · left; rw [if_neg h] at hqe; rw [← hqe]; exact hq
  · rcases List.mem_append.1 hp with h | h
    · exact Or.inl h
    · right; rcases List.mem_singleton.1 h with rfl; rfl

theorem lookup_cons {α β : Type} [BEq α] [LawfulBEq α] [DecidableEq α]
    (a : α) (x : α × β) (l : List (α × β)) :
    (x :: l).lookup a = if a = x.1 then some x.2 else l.lookup a := by
  cases x with
  | mk k v =>
      by_cases h : a = k
      · have hb : (a == k) = true := by simpa using h
        simp [List.lookup, hb, h]
      · have hb : (a == k) = false := by simpa using h
        simp [List.lookup, hb, h]

theorem lookup_map_update_ne {β : Type} (d : List (Nat × β)) (k : Nat)
    (v : β) (x : Nat) (hx : x ≠ k) :
    (d.map (fun p => if p.1 == k then (p.1, v) else p)).lookup x
      = d.lookup x := by
  induction d with
  | nil => rfl
  | cons q qs ih =>
      simp only [beq_iff_eq] at ih ⊢
      by_cases hq : q.1 = k
      · simp [lookup_cons, hq, hx, ih]
      · by_cases hxx : x = q.1
        · simp [lookup_cons, hq, hxx]
        · simp [lookup_cons, hq, hxx, ih]

theorem lookup_append_single_ne {β : Type} (d : List (Nat × β)) (k : Nat)
    (v : β) (x : Nat) (hx : x ≠ k) :
    (d ++ [(k, v)]).lookup x = d.lookup x := by
  induction d with
  | nil =>
      have hb : (x == k) = false := by simpa using hx
      simp [List.lookup, hb]
  | cons q qs ih =>
      rw [List.cons_append, lookup_cons, lookup_cons]
      by_cases hxx : x = q.1
      · rw [if_pos hxx, if_pos hxx]
      · rw [if_neg hxx, if_neg hxx, ih]

theorem lookup_upsert_ne {β : Type} (d : List (Nat × β)) (k : Nat) (v : β)
    (x : Nat) (hx : x ≠ k) : (upsert d k v).lookup x = d.lookup x := by
  unfold upsert
  split
  · exact lookup_map_update_ne d k v x hx
  · exact lookup_append_single_ne d k v x hx

theorem lookup_mem {α β : Type} [BEq α] [LawfulBEq α] [DecidableEq α]
    {d : List (α × β)} {x : α} {v : β} (h : d.lookup x = some v) :
    v ∈ d.map Prod.snd := by
  induction d with
  | nil => simp [List.lookup] at h
  | cons q qs ih =>
      rw [lookup_cons] at h
      by_cases hxx : x = q.1
      · rw [if_pos hxx] at h
        exact List.mem_map.2 ⟨q, List.mem_cons_self _ _, Option.some_inj.1 h⟩
      · rw [if_neg hxx] at h
        exact List.mem_cons_of_mem _ (ih h)

/-! Lemmas about the stable descending sorts and the Python slice. -/

instance relScoreTotal : IsTotal (Nat × ℚ) (fun a b => b.2 ≤ a.2) :=
  ⟨fun a b => le_total b.2 a.2⟩

instance relScoreTrans : IsTrans (Nat × ℚ) (fun a b => b.2 ≤ a.2) :=
  ⟨fun _ _ _ h1 h2 => le_trans h2 h1⟩

instance relCountTotal : IsTotal (Book × Nat) (fun a b => b.2 ≤ a.2) :=
  ⟨fun a b => le_total b.2 a.2⟩

instance relCountTrans : IsTrans (Book × Nat) (fun a b => b.2 ≤ a.2) :=
  ⟨fun _ _ _ h1 h2 => le_trans h2 h1⟩

theorem sortByScoreDesc_perm (l : List (Nat × ℚ)) :
    (sortByScoreDesc l).Perm l :=
  List.perm_insertionSort _ l

theorem sortByCountDesc_perm (l : List (Book × Nat)) :
    (sortByCountDesc l).Perm l :=
  List.perm_insertionSort _ l

theorem sortByCountDesc_sorted (l : List (Book × Nat)) :
    (sortByCountDesc l).Pairwise (fun a b => b.2 ≤ a.2) :=
  List.sorted_insertionSort _ l

/-- When every key is equal, the engine's stable sort is the identity: ties
are returned in the incoming (repository) order. -/
theorem sortByScoreDesc_const {l : List (Nat × ℚ)} {q : ℚ}
    (h : ∀ p ∈ l, p.2 = q) : sortByScoreDesc l = l := by
  refine List.Sorted.insertionSort_eq ?_
  induction l with
  | nil => exact List.Pairwise.nil
  | cons x xs ih =>
      refine List.Pairwise.cons (fun b hb => ?_)
        (ih (fun p hp => h p (List.mem_cons_of_mem _ hp)))
      rw [h x (List.mem_cons_self _ _), h b (List.mem_cons_of_mem _ hb)]

theorem pyTake_sublist {α : Type} (n : Int) (l : List α) :
    (pyTake n l).Sublist l := by
  unfold pyTake
  split
  · exact List.take_sublist _ _
  · exact List.take_sublist _ _

theorem pyTake_zero {α : Type} (l : List α) : pyTake 0 l = [] := by
  simp [pyTake]

/-- Primary-key lookup: with unique ids, find? returns exactly the member
with the sought id. -/
theorem find?_of_nodup {books : List Book} {b : Book}
    (hnd : (books.map Book.id).Nodup) (hb : b ∈ books) :
    books.find? (fun x => x.id == b.id) = some b := by
  induction books with
  | nil => cases hb
  | cons a tl ih =>
      rw [List.map_cons, List.nodup_cons] at hnd
      rcases List.mem_cons.1 hb with rfl | hbtl
      · simp [List.find?]
      · have hne : a.id ≠ b.id := by
          intro he
          exact hnd.1 (by rw [he]; exact List.mem_map.2 ⟨b, hbtl, rfl⟩)
        have hb2 : (a.id == b.id) = false := by simpa using hne
        simp only [List.find?, hb2]
        exact ih hnd.2 hbtl

/-- Building a dict by repeated insertion of fresh keys is an append. -/
theorem foldl_upsert_fresh (g : Book → ℚ) :
    ∀ (l : List Book) (acc : List (Nat × ℚ)),
      (acc.map Prod.fst ++ l.map Book.id).Nodup →
      l.foldl (fun d b => upsert d b.id (g b)) acc
        = acc ++ l.map (fun b => (b.id, g b))
  | [], acc, _ => by simp
  | b :: tl, acc, hnd => by
      have hsplit := hnd
      rw [List.map_cons] at hsplit
      have hfresh : b.id ∉ acc.map Prod.fst := by
        intro hmem
        have : List.Disjoint (acc.map Prod.fst) (b.id :: tl.map Book.id) :=
          List.disjoint_of_nodup_append hsplit
        exact this hmem (List.mem_cons_self _ _)
      have hany : acc.any (fun p => p.1 == b.id) = false := by
        rw [List.any_eq_false]
        intro p hp
        simp only [beq_iff_eq]
        intro hpe
        exact hfresh (by rw [← hpe]; exact List.mem_map.2 ⟨p, hp, rfl⟩)
      have hstep : upsert acc b.id (g b) = acc ++ [(b.id, g b)] := by
        unfold upsert
        rw [hany]
        simp
      rw [List.foldl_cons, hstep,
        foldl_upsert_fresh g tl (acc ++ [(b.id, g b)]) (by
          have heq : (acc ++ [(b.id, g b)]).map Prod.fst ++ tl.map Book.id
              = acc.map Prod.fst ++ (b :: tl).map Book.id := by
            simp [List.map_append, List.append_assoc]
          rw [heq]
          exact hnd)]
      simp

/-! Characterisation of the candidate set, the score dict and the two
recommendation paths. -/

theorem mem_candidates {db : DB} {u : Nat} {b : Book} :
    b ∈ candidates db u ↔
      b ∈ db.books ∧ b.available = true ∧ b.user_id ≠ u ∧
        b.id ∉ interactedIds db u := by
  unfold candidates
  rw [List.mem_filter]
  simp [and_assoc]

theorem candidates_sublist (db : DB) (u : Nat) :
    (candidates db u).Sublist db.books :=
  List.filter_sublist _

theorem candidates_ids_nodup {db : DB} {u : Nat}
    (hnd : (db.books.map Book.id).Nodup) :
    ((candidates db u).map Book.id).Nodup :=
  hnd.sublist (List.Sublist.map _ (candidates_sublist db u))

theorem bookScores_eq {db : DB} {rows : Nat → List ℚ} {u : Nat}
    {p : UserProfile} (hnd : (db.books.map Book.id).Nodup) :
    bookScores db rows u p
      = (candidates db u).map (fun b => (b.id, scoreFor db rows u p b)) := by
  unfold bookScores
  rw [foldl_upsert_fresh _ _ [] (by simpa using candidates_ids_nodup hnd)]
  simp

theorem lookup_map_books {l : List Book} (g : Book → ℚ)
    (hnd : (l.map Book.id).Nodup) {b : Book} (hb : b ∈ l) :
    (l.map (fun x => (x.id, g x))).lookup b.id = some (g b) := by
  induction l with
  | nil => cases hb
  | cons a tl ih =>
      rw [List.map_cons, List.nodup_cons] at hnd
      rw [List.map_cons, lookup_cons]
      rcases List.mem_cons.1 hb with rfl | hbtl
      · rw [if_pos rfl]
      · have hne : b.id ≠ a.id := by
          intro he
          exact hnd.1 (by rw [← he]; exact List.mem_map.2 ⟨b, hbtl, rfl⟩)
        rw [if_neg (by simpa using hne)]
        exact ih hnd.2 hbtl

/-- Every entry of the personalised path comes from a candidate book, with
the rounded blended score and the generated reason attached. -/
theorem mem_personalized {db : DB} {rows : Nat → List ℚ} {u : Nat} {n : Int}
    {p : UserProfile} {r : Recommendation}
    (hnd : (db.books.map Book.id).Nodup)
    (hr : r ∈ personalized db rows u n p) :
    ∃ b ∈ candidates db u, r.book = b ∧
      r.relevance_score = round3 (scoreFor db rows u p b) ∧
      r.recommendation_reason = generate_reason p b := by
  unfold personalized at hr
  split at hr
  · cases hr
  · obtain ⟨bid, hbid, hf⟩ := List.mem_filterMap.1 hr
    obtain ⟨book, hfind, hrdef⟩ := Option.map_eq_some'.1 hf
    obtain ⟨pair, hpair, hfst⟩ := List.mem_map.1 hbid
    have hpair2 : pair ∈ sortByScoreDesc (bookScores db rows u p) :=
      (pyTake_sublist n _).subset hpair
    have hpair3 : pair ∈ bookScores db rows u p :=
      (sortByScoreDesc_perm _).subset hpair2
    rw [bookScores_eq hnd] at hpair3
    obtain ⟨b, hbcand, hpe⟩ := List.mem_map.1 hpair3
    have hbid_eq : bid = b.id := by rw [← hfst, ← hpe]
    have hbbooks : b ∈ db.books := (candidates_sublist db u).subset hbcand
    have hfind2 : db.books.find? (fun x => x.id == bid) = some b := by
      rw [hbid_eq]
      exact find?_of_nodup hnd hbbooks
    have hbook : book = b := by
      rw [hfind] at hfind2
      exact Option.some_inj.1 hfind2
    have hlook : (bookScores db rows u p).lookup bid
        = some (scoreFor db rows u p b) := by
      rw [bookScores_eq hnd, hbid_eq]
      exact lookup_map_books _ (candidates_ids_nodup hnd) hbcand
    refine ⟨b, hbcand, ?_, ?_, ?_⟩
    · rw [← hrdef, hbook]
    · rw [← hrdef]
      simp only [hlook, Option.getD_some]
    · rw [← hrdef, hbook]

/-- Every entry of the popularity fallback is an available book carrying the
fixed score 1/2 and the interaction-count reason. -/
theorem mem_get_popular {db : DB} {n : Int} {l : List Recommendation}
    {r : Recommendation} (hl : get_popular_books db n = some l) (hr : r ∈ l) :
    ∃ b ∈ db.books, b.available = true ∧ r.book = b ∧
      r.relevance_score = 1/2 ∧
      r.recommendation_reason
        = "Popular book with " ++ toString (popCount db b) ++ " interactions" := by
  unfold get_popular_books at hl
  split at hl
  · cases hl
  · have hl2 := Option.some_inj.1 hl
    rw [← hl2] at hr
    obtain ⟨pc, hpc, hpcr⟩ := List.mem_map.1 hr
    have hpc2 : pc ∈ sortByCountDesc
        ((db.books.filter (fun b => b.available)).map
          (fun b => (b, popCount db b))) :=
      (List.take_sublist _ _).subset hpc
    have hpc3 := (sortByCountDesc_perm _).subset hpc2
    obtain ⟨b, hbav, hbe⟩ := List.mem_map.1 hpc3
    have hbbooks : b ∈ db.books := List.mem_of_mem_filter hbav
    have hbava : b.available = true := by
      have := List.of_mem_filter hbav
      simpa using this
    refine ⟨b, hbbooks, hbava, ?_, ?_, ?_⟩
    · rw [← hpcr, ← hbe]
    · rw [← hpcr]
    · rw [← hpcr, ← hbe]

/-- The popularity fallback is ordered by interaction count, descending. -/
theorem get_popular_sorted {db : DB} {n : Int} {l : List Recommendation}
    (hl : get_popular_books db n = some l) :
    l.Pairwise (fun r s => popCount db s.book ≤ popCount db r.book) := by
  unfold get_popular_books at hl
  split at hl
  · cases hl
  · have hl2 := Option.some_inj.1 hl
    rw [← hl2]
    rw [List.pairwise_map]
    have hsorted := sortByCountDesc_sorted
      ((db.books.filter (fun b => b.available)).map (fun b => (b, popCount db b)))
    have htake : (List.take n.toNat (sortByCountDesc
        ((db.books.filter (fun b => b.available)).map
          (fun b => (b, popCount db b))))).Pairwise
        (fun a b => b.2 ≤ a.2) :=
      hsorted.sublist (List.take_sublist _ _)
    refine htake.imp_of_mem ?_
    intro a c ha hc hle
    have hmem : ∀ pc ∈ List.take n.toNat (sortByCountDesc
        ((db.books.filter (fun b => b.available)).map
          (fun b => (b, popCount db b)))), pc.2 = popCount db pc.1 := by
      intro pc hpc
      have hpc3 := (sortByCountDesc_perm _).subset
        ((List.take_sublist _ _).subset hpc)
      obtain ⟨b, _, hbe⟩ := List.mem_map.1 hpc3
      rw [← hbe]
    have ha2 := hmem a ha
    have hc2 := hmem c hc
    simpa [ha2, hc2] using hle

/-! Bounds on the profile weights, the similarity values and the rounding. -/

theorem interactionWeight_pos (t : String) : 0 < interactionWeight t := by
  unfold interactionWeight
  split_ifs <;> norm_num

theorem tallyAdd_nonneg {d : List (String × ℚ)} {k : String} {w : ℚ}
    (hd : ∀ p ∈ d, 0 ≤ p.2) (hw : 0 ≤ w) :
    ∀ p ∈ tallyAdd d k w, 0 ≤ p.2 := by
  unfold tallyAdd
  split
  · intro p hp
    obtain ⟨q, hq, hqe⟩ := List.mem_map.1 hp
    by_cases h : q.1 == k
    · rw [if_pos h] at hqe
      rw [← hqe]
      exact add_nonneg (hd q hq) hw
    · rw [if_neg h] at hqe
      rw [← hqe]
      exact hd q hq
  · intro p hp
    rcases List.mem_append.1 hp with h | h
    · exact hd p h
    · rcases List.mem_singleton.1 h with rfl
      exact hw

theorem profileStep_nonneg (db : DB) (i : UserInteraction)
    {t : List (String × ℚ) × List (String × ℚ)}
    (h1 : ∀ p ∈ t.1, 0 ≤ p.2) (h2 : ∀ p ∈ t.2, 0 ≤ p.2) :
    (∀ p ∈ (profileStep db t i).1, 0 ≤ p.2) ∧
      (∀ p ∈ (profileStep db t i).2, 0 ≤ p.2) := by
  unfold profileStep
  cases db.books.find? (fun b => b.id == i.book_id) with
  | none => exact ⟨h1, h2⟩
  | some book =>
      exact ⟨tallyAdd_nonneg h1 (interactionWeight_pos _).le,
        tallyAdd_nonneg h2 (interactionWeight_pos _).le⟩

theorem foldl_profileStep_nonneg (db : DB) :
    ∀ (inters : List UserInteraction)
      (t : List (String × ℚ) × List (String × ℚ)),
      (∀ p ∈ t.1, 0 ≤ p.2) → (∀ p ∈ t.2, 0 ≤ p.2) →
      (∀ p ∈ (inters.foldl (profileStep db) t).1, 0 ≤ p.2) ∧
        (∀ p ∈ (inters.foldl (profileStep db) t).2, 0 ≤ p.2)
  | [], t, h1, h2 => ⟨h1, h2⟩
  | i :: tl, t, h1, h2 => by
      rw [List.foldl_cons]
      obtain ⟨g1, g2⟩ := profileStep_nonneg db i h1 h2
      exact foldl_profileStep_nonneg db tl _ g1 g2

theorem val_le_sumVals {d : List (String × ℚ)} (hd : ∀ p ∈ d, 0 ≤ p.2)
    {p : String × ℚ} (hp : p ∈ d) : p.2 ≤ sumVals d := by
  unfold sumVals
  refine List.single_le_sum ?_ _ (List.mem_map.2 ⟨p, hp, rfl⟩)
  intro x hx
  obtain ⟨q, hq, hqe⟩ := List.mem_map.1 hx
  rw [← hqe]
  exact hd q hq

theorem sumVals_nonneg {d : List (String × ℚ)} (hd : ∀ p ∈ d, 0 ≤ p.2) :
    0 ≤ sumVals d := by
  unfold sumVals
  refine List.sum_nonneg ?_
  intro x hx
  obtain ⟨q, hq, hqe⟩ := List.mem_map.1 hx
  rw [← hqe]
  exact hd q hq

theorem normalizeTally_bounds {d : List (String × ℚ)}
    (hd : ∀ p ∈ d, 0 ≤ p.2) :
    ∀ p ∈ normalizeTally d, 0 ≤ p.2 ∧ p.2 ≤ 1 := by
  intro p hp
  unfold normalizeTally at hp
  obtain ⟨q, hq, hqe⟩ := List.mem_map.1 hp
  rw [← hqe]
  by_cases h0 : sumVals d = 0
  · have hq0 : q.2 = 0 :=
      le_antisymm (by rw [← h0]; exact val_le_sumVals hd hq) (hd q hq)
    simp [h0, hq0]
  · have hpos : 0 < sumVals d := lt_of_le_of_ne (sumVals_nonneg hd) (Ne.symm h0)
    simp only [h0, if_false]
    constructor
    · exact div_nonneg (hd q hq) hpos.le
    · rw [div_le_one hpos]
      exact val_le_sumVals hd hq

/-- Inversion of build_user_profile on the some case. -/
theorem build_user_profile_some {db : DB} {u : Nat} {p : UserProfile}
    (h : build_user_profile db u = some p) :
    p = { categories :=
            normalizeTally (((userInteractions db u).foldl (profileStep db) ([], [])).1)
          authors :=
            normalizeTally (((userInteractions db u).foldl (profileStep db) ([], [])).2)
          interaction_count := (userInteractions db u).length }
      ∧ userInteractions db u ≠ [] := by
  unfold build_user_profile at h
  by_cases he : (userInteractions db u).isEmpty = true
  · simp [he] at h
  · simp only [he, if_false] at h
    refine ⟨(Option.some_inj.1 h).symm, ?_⟩
    intro hcontra
    exact he (by rw [hcontra]; rfl)

theorem build_user_profile_bounds {db : DB} {u : Nat} {p : UserProfile}
    (h : build_user_profile db u = some p) :
    (∀ x ∈ p.categories, 0 ≤ x.2 ∧ x.2 ≤ 1) ∧
      (∀ x ∈ p.authors, 0 ≤ x.2 ∧ x.2 ≤ 1) := by
  obtain ⟨hp, -⟩ := build_user_profile_some h
  obtain ⟨g1, g2⟩ := foldl_profileStep_nonneg db (userInteractions db u)
    ([], []) (by intro x hx; cases hx) (by intro x hx; cases hx)
  rw [hp]
  exact ⟨normalizeTally_bounds g1, normalizeTally_bounds g2⟩

theorem lookup_getD_bounds {d : List (String × ℚ)}
    (hd : ∀ x ∈ d, 0 ≤ x.2 ∧ x.2 ≤ 1) (k : String) :
    0 ≤ (d.lookup k).getD 0 ∧ (d.lookup k).getD 0 ≤ 1 := by
  cases hl : d.lookup k with
  | none => simp
  | some v =>
      simp only [Option.getD_some]
      obtain ⟨x, hx, he⟩ := List.mem_map.1 (lookup_mem hl)
      rw [← he]
      exact hd x hx

theorem round3_nonneg {q : ℚ} (h : 0 ≤ q) : 0 ≤ round3 q := by
  unfold round3
  apply div_nonneg _ (by norm_num)
  have hz : (0:ℤ) ≤ round (q * 1000) := by
    rw [round_eq]
    apply Int.le_floor.2
    push_cast
    linarith
  exact_mod_cast hz

theorem round3_le_one {q : ℚ} (h : q ≤ 1) : round3 q ≤ 1 := by
  unfold round3
  rw [div_le_one (by norm_num)]
  have hz : round (q * 1000) ≤ 1000 := by
    rw [round_eq]
    have hlt : ⌊q * 1000 + 1/2⌋ < 1001 := Int.floor_lt.2 (by push_cast; linarith)
    omega
  exact_mod_cast hz

/-! Lemmas about calculate_content_similarity. -/

theorem foldl_sim_lookup_none (m : Model) (x : Nat) :
    ∀ (ts : List Nat) (acc : List (Nat × ℚ)), acc.lookup x = none →
      (ts.foldl
        (fun sims t =>
          if m.book_ids.contains t && t != x then
            upsert sims t (simEntry m (pyIndex x m.book_ids) (pyIndex t m.book_ids))
          else sims) acc).lookup x = none
  | [], _, h => h
  | t :: tl, acc, h => by
      rw [List.foldl_cons]
      by_cases hg : (m.book_ids.contains t && t != x) = true
      · rw [if_pos hg]
        have hne : t ≠ x := by
          have h2 := hg
          rw [Bool.and_eq_true] at h2
          simpa using h2.2
        refine foldl_sim_lookup_none m x tl _ ?_
        rw [lookup_upsert_ne _ _ _ _ (Ne.symm hne)]
        exact h
      · rw [if_neg hg]
        exact foldl_sim_lookup_none m x tl acc h

theorem calcSims_lookup_self (m : Model) (x : Nat) (targets : List Nat) :
    (calculate_content_similarity m x targets).lookup x = none := by
  unfold calculate_content_similarity
  split
  · split
    · rfl
    · exact foldl_sim_lookup_none m x targets [] rfl
  · rfl

theorem foldl_sim_vals (m : Model) (x : Nat) :
    ∀ (ts : List Nat) (acc : List (Nat × ℚ)),
      (∀ p ∈ acc, ∃ i j, p.2 = simEntry m i j) →
      ∀ p ∈ ts.foldl
        (fun sims t =>
          if m.book_ids.contains t && t != x then
            upsert sims t (simEntry m (pyIndex x m.book_ids) (pyIndex t m.book_ids))
          else sims) acc, ∃ i j, p.2 = simEntry m i j
  | [], _, h => h
  | t :: tl, acc, h => by
      rw [List.foldl_cons]
      by_cases hg : (m.book_ids.contains t && t != x) = true
      · rw [if_pos hg]
        refine foldl_sim_vals m x tl _ ?_
        intro p hp
        rcases mem_upsert hp with hmem | hval
        · exact h p hmem
        · exact ⟨pyIndex x m.book_ids, pyIndex t m.book_ids, hval⟩
      · rw [if_neg hg]
        exact foldl_sim_vals m x tl acc h

theorem mem_calcSims_val (m : Model) (bid : Nat) (targets : List Nat) :
    ∀ p ∈ calculate_content_similarity m bid targets,
      ∃ i j, p.2 = simEntry m i j := by
  unfold calculate_content_similarity
  split
  · split
    · intro p hp; cases hp
    · exact foldl_sim_vals m bid targets [] (by intro p hp; cases hp)
  · intro p hp; cases hp

theorem calcSims_pair (m : Model) (a b : Nat) (ha : a ∈ m.book_ids)
    (hb : b ∈ m.book_ids) (hne : b ≠ a) :
    calculate_content_similarity m a [b]
      = [(b, simEntry m (pyIndex a m.book_ids) (pyIndex b m.book_ids))] := by
  have hca : m.book_ids.contains a = true := by simpa using ha
  have hcb : m.book_ids.contains b = true := by simpa using hb
  have hbne : (b != a) = true := by simpa using hne
  have hnil : m.book_ids ≠ [] := by
    intro hcontra
    rw [hcontra] at ha
    cases ha
  have hemp : m.book_ids.isEmpty = false := by
    rw [← Bool.not_eq_true]
    intro hcontra
    exact hnil (List.isEmpty_iff.1 hcontra)
  unfold calculate_content_similarity
  simp [ha, hb, hne, hemp, upsert]

theorem calcSims_bounds {m : Model} (hrows : rowBounds m.rows) (bid : Nat)
    (targets : List Nat) :
    ∀ p ∈ calculate_content_similarity m bid targets, 0 ≤ p.2 ∧ p.2 ≤ 1 := by
  intro p hp
  obtain ⟨i, j, he⟩ := mem_calcSims_val m bid targets p hp
  rw [he]
  unfold simEntry
  exact ⟨dotQ_nonneg (hrows i).1 (hrows j).1,
    dotQ_le_one (hrows i).1 (hrows j).1 (hrows i).2 (hrows j).2⟩

theorem avg_bounds {l : List (Nat × ℚ)} (hl : ∀ p ∈ l, 0 ≤ p.2 ∧ p.2 ≤ 1)
    (hne : l ≠ []) :
    0 ≤ (l.map Prod.snd).sum / (l.length : ℚ) ∧
      (l.map Prod.snd).sum / (l.length : ℚ) ≤ 1 := by
  have hlen : 0 < (l.length : ℚ) := by
    have : 0 < l.length := List.length_pos.2 hne
    exact_mod_cast this
  have hsum0 : 0 ≤ (l.map Prod.snd).sum := by
    refine List.sum_nonneg ?_
    intro x hx
    obtain ⟨q, hq, hqe⟩ := List.mem_map.1 hx
    rw [← hqe]
    exact (hl q hq).1
  have hsum1 : (l.map Prod.snd).sum ≤ (l.length : ℚ) := by
    have hall : ∀ x ∈ l.map Prod.snd, x ≤ (1:ℚ) := by
      intro x hx
      obtain ⟨q, hq, hqe⟩ := List.mem_map.1 hx
      rw [← hqe]
      exact (hl q hq).2
    have := List.sum_le_card_nsmul (l.map Prod.snd) 1 hall
    simpa [nsmul_eq_mul] using this
  exact ⟨div_nonneg hsum0 hlen.le, by rw [div_le_one hlen]; exact hsum1⟩

theorem ucs_bounds (db : DB) {rows : Nat → List ℚ} (hrows : rowBounds rows)
    (u bid : Nat) :
    0 ≤ user_content_similarity db rows u bid ∧
      user_content_similarity db rows u bid ≤ 1 := by
  unfold user_content_similarity
  by_cases he : (db.interactions.filter
      (fun i => i.user_id == u &&
        (i.interaction_type == "like" || i.interaction_type == "request"))).isEmpty = true
  · simp [he]
  · by_cases hs : (calculate_content_similarity (fitModel db rows) bid
        ((db.interactions.filter
          (fun i => i.user_id == u &&
            (i.interaction_type == "like" || i.interaction_type == "request"))).map
          (fun i => i.book_id))).isEmpty = true
    · simp [he, hs]
    · simp only [he, hs, if_false]
      have hvals := calcSims_bounds (m := fitModel db rows) hrows bid
        ((db.interactions.filter
          (fun i => i.user_id == u &&
            (i.interaction_type == "like" || i.interaction_type == "request"))).map
          (fun i => i.book_id))
      have hne2 : calculate_content_similarity (fitModel db rows) bid
          ((db.interactions.filter
            (fun i => i.user_id == u &&
              (i.interaction_type == "like" || i.interaction_type == "request"))).map
            (fun i => i.book_id)) ≠ [] := by
        intro hcontra
        exact hs (by rw [hcontra]; rfl)
      exact avg_bounds hvals hne2

theorem scoreFor_bounds {db : DB} {u : Nat} {p : UserProfile}
    (rows : Nat → List ℚ) (hrows : rowBounds rows)
    (hp : build_user_profile db u = some p) (b : Book) :
    0 ≤ scoreFor db rows u p b ∧ scoreFor db rows u p b ≤ 1 := by
  obtain ⟨hc, ha⟩ := build_user_profile_bounds hp
  obtain ⟨hc0, hc1⟩ := lookup_getD_bounds hc b.category
  obtain ⟨ha0, ha1⟩ := lookup_getD_bounds ha b.author
  obtain ⟨hu0, hu1⟩ := ucs_bounds db hrows u b.id
  unfold scoreFor
  constructor
  · have h04 : (0:ℚ) ≤ 0.4 := by norm_num
    have h03 : (0:ℚ) ≤ 0.3 := by norm_num
    nlinarith
  · nlinarith

/-! Branch analysis of generate_recommendations and degenerate cases. -/

theorem profile_of_no_interactions {db : DB} {u : Nat}
    (h : userInteractions db u = []) : build_user_profile db u = none := by
  unfold build_user_profile
  simp [h]

theorem gen_recs_no_interactions {db : DB} {rows : Nat → List ℚ} {u : Nat}
    {n : Int} (h : userInteractions db u = []) :
    generate_recommendations db rows u n = get_popular_books db n := by
  unfold generate_recommendations
  simp [profile_of_no_interactions h]

theorem gen_recs_personalized {db : DB} {rows : Nat → List ℚ} {u : Nat}
    {n : Int} {p : UserProfile} (hp : build_user_profile db u = some p)
    (hids : (fitModel db rows).book_ids.isEmpty = false) :
    generate_recommendations db rows u n = some (personalized db rows u n p) := by
  unfold generate_recommendations
  simp [hp, hids]

theorem fitModel_empty {db : DB} (rows : Nat → List ℚ)
    (h : db.books.filter (fun b => b.available) = []) :
    (fitModel db rows).book_ids = [] := by
  unfold fitModel
  rw [h]
  rfl

theorem calcSims_empty_corpus {m : Model} (h : m.book_ids = []) (bid : Nat)
    (targets : List Nat) : calculate_content_similarity m bid targets = [] := by
  unfold calculate_content_similarity
  rw [h]
  simp

theorem get_popular_books_no_avail {db : DB} {n : Int}
    (h : db.books.filter (fun b => b.available) = []) (hn : 0 ≤ n) :
    get_popular_books db n = some [] := by
  unfold get_popular_books
  rw [if_neg (not_lt.2 hn)]
  simp [h, sortByCountDesc]

theorem get_popular_books_zero (db : DB) : get_popular_books db 0 = some [] := by
  unfold get_popular_books
  norm_num

theorem personalized_zero (db : DB) (rows : Nat → List ℚ) (u : Nat)
    (p : UserProfile) : personalized db rows u 0 p = [] := by
  unfold personalized
  split
  · rfl
  · simp [pyTake_zero]

theorem candidates_empty_of_no_avail {db : DB} {u : Nat}
    (h : db.books.filter (fun b => b.available) = []) :
    candidates db u = [] := by
  refine List.eq_nil_iff_forall_not_mem.2 ?_
  intro b hb
  obtain ⟨hbooks, hav, -, -⟩ := mem_candidates.1 hb
  have : b ∈ db.books.filter (fun b => b.available) :=
    List.mem_filter.2 ⟨hbooks, by simpa using hav⟩
  rw [h] at this
  cases this

theorem build_user_profile_none_inv {db : DB} {u : Nat}
    (h : build_user_profile db u = none) : userInteractions db u = [] := by
  unfold build_user_profile at h
  by_cases he : (userInteractions db u).isEmpty = true
  · exact List.isEmpty_iff.1 he
  · simp [he] at h

theorem not_mem_keys_of_lookup_none {α β : Type} [BEq α] [LawfulBEq α]
    [DecidableEq α] {d : List (α × β)} {x : α} (h : d.lookup x = none) :
    x ∉ d.map Prod.fst := by
  induction d with
  | nil => simp
  | cons q qs ih =>
      rw [lookup_cons] at h
      by_cases hx : x = q.1
      · rw [if_pos hx] at h
        cases h
      · rw [if_neg hx] at h
        simp only [List.map_cons, List.mem_cons]
        rintro (he | hm)
        · exact hx he
        · exact ih h hm

theorem foldl_profileStep_missing (db : DB) :
    ∀ (l : List UserInteraction)
      (t : List (String × ℚ) × List (String × ℚ)),
      (∀ i ∈ l, db.books.find? (fun b => b.id == i.book_id) = none) →
      l.foldl (profileStep db) t = t
  | [], _, _ => rfl
  | i :: tl, t, h => by
      rw [List.foldl_cons]
      have hstep : profileStep db t i = t := by
        unfold profileStep
        rw [h i (List.mem_cons_self _ _)]
      rw [hstep]
      exact foldl_profileStep_missing db tl t
        (fun j hj => h j (List.mem_cons_of_mem _ hj))

/-! Claim theorems. -/

/-- C1 counterexample: on the popularity fallback path the engine does not
exclude the requesting user\x27s own books.  User 1 owns the only available
book, has no interactions, and generateRecommendations(1, 5) returns that
very book: a result whose owner id equals the requesting user id, refuting
the claim as stated. -/
theorem C1_counterexample :
    (generate_recommendations dbSelf exRows0 1 5).map
        (List.map (fun r => r.book.user_id)) = some [1] := by
  with_unfolding_all decide

/-- C1 amended: every book returned by generateRecommendations is available
and not previously interacted with by the requesting user; the
no-self-ownership exclusion holds only on the personalised path (profile
present and corpus non-empty) — the popularity fallback can return the
requesting user\x27s own books. -/
theorem C1_amended (db : DB) (rows : Nat → List ℚ) (u : Nat) (n : Int)
    (l : List Recommendation) (hnd : (db.books.map Book.id).Nodup)
    (hl : generate_recommendations db rows u n = some l)
    (r : Recommendation) (hr : r ∈ l) :
    r.book.available = true ∧ r.book.id ∉ interactedIds db u ∧
      (∀ p, build_user_profile db u = some p →
        (fitModel db rows).book_ids.isEmpty = false → r.book.user_id ≠ u) := by
  unfold generate_recommendations at hl
  cases hb : build_user_profile db u with
  | none =>
      simp only [hb] at hl
      obtain ⟨b, hbbooks, hbav, hrbook, hsc, hrsn⟩ := mem_get_popular hl hr
      have hints : userInteractions db u = [] := build_user_profile_none_inv hb
      refine ⟨by rw [hrbook]; exact hbav, ?_, ?_⟩
      · unfold interactedIds
        rw [hints]
        simp
      · intro p hp
        exact Option.noConfusion hp
  | some p =>
      simp only [hb] at hl
      cases hids : (fitModel db rows).book_ids.isEmpty with
      | true =>
          simp only [hids, if_true] at hl
          have hav : db.books.filter (fun b => b.available) = [] := by
            have h1 : (fitModel db rows).book_ids = [] := List.isEmpty_iff.1 hids
            unfold fitModel at h1
            exact List.map_eq_nil_iff.1 h1
          by_cases hneg : n < 0
          · unfold get_popular_books at hl
            rw [if_pos hneg] at hl
            cases hl
          · rw [get_popular_books_no_avail hav (not_lt.1 hneg)] at hl
            rw [← Option.some_inj.1 hl] at hr
            cases hr
      | false =>
          simp only [hids, Bool.false_eq_true, if_false] at hl
          have hl2 := Option.some_inj.1 hl
          rw [← hl2] at hr
          obtain ⟨b, hbcand, hrbook, hsc, hrsn⟩ := mem_personalized hnd hr
          obtain ⟨hbbooks, hbav, hbuser, hbint⟩ := mem_candidates.1 hbcand
          exact ⟨by rw [hrbook]; exact hbav, by rw [hrbook]; exact hbint,
            fun p2 hp2 hids2 => by rw [hrbook]; exact hbuser⟩

/-- C1 amended witness: concrete run on the personalised path (dbMissing,
user 1) whose single result satisfies all three exclusions. -/
theorem C1_amended_witness :
    exRecMissing.book.available = true ∧
      exRecMissing.book.id ∉ interactedIds dbMissing 1 ∧
      (∀ p, build_user_profile dbMissing 1 = some p →
        (fitModel dbMissing exRows0).book_ids.isEmpty = false →
        exRecMissing.book.user_id ≠ 1) :=
  C1_amended dbMissing exRows0 1 3 [exRecMissing]
    (by with_unfolding_all decide) (by with_unfolding_all decide)
    exRecMissing (by simp)

/-- C2 counterexample: with a non-empty profile and two candidates, a count
of -1 yields the Python slice [:-1], i.e. one recommendation, not the empty
list the claim promises for every non-positive count. -/
theorem C2_counterexample :
    (generate_recommendations dbNeg exRows0 1 (-1)).map List.length
      = some 1 := by
  with_unfolding_all decide

/-- C2 amended: a count of exactly 0 returns the empty list on every path;
a negative count is not defended (the personalised path drops the last |n|
scored candidates and can return a non-empty list, and the fallback path
hands the negative LIMIT to MySQL, which rejects it). -/
theorem C2_amended (db : DB) (rows : Nat → List ℚ) (u : Nat) :
    generate_recommendations db rows u 0 = some [] := by
  unfold generate_recommendations
  cases hb : build_user_profile db u with
  | none =>
      simp only [hb]
      exact get_popular_books_zero db
  | some p =>
      simp only [hb]
      cases hids : (fitModel db rows).book_ids.isEmpty with
      | true => simp [hids, get_popular_books_zero db]
      | false => simp [hids, personalized_zero]

/-- C3 counterexample: two candidates with equal scores are returned in
repository iteration order.  The same data with the two book rows swapped
yields the opposite output order ([5, 4] versus [4, 5]), so equal scores are
ordered by incidental repository iteration order, not by an explicit
deterministic secondary key such as ascending book id. -/
theorem C3_counterexample :
    (generate_recommendations dbTieA exRows0 1 10).map
        (List.map (fun r => r.book.id)) = some [5, 4] ∧
      (generate_recommendations dbTieB exRows0 1 10).map
        (List.map (fun r => r.book.id)) = some [4, 5] ∧
      dbTieA.books.Perm dbTieB.books ∧
      dbTieA.interactions = dbTieB.interactions := by
  refine ⟨?_, ?_, ?_, rfl⟩ <;> with_unfolding_all decide

/-- C3 amended: for an unchanged snapshot (same repository iteration order)
generateRecommendations is deterministic — two calls return identical
lists — and the engine\x27s stable sort keeps equal scores in repository
iteration order (no secondary key is applied). -/
theorem C3_amended (db : DB) (rows : Nat → List ℚ) (u : Nat) (n : Int)
    (l : List (Nat × ℚ)) (q : ℚ) (h : ∀ p ∈ l, p.2 = q) :
    generate_recommendations db rows u n = generate_recommendations db rows u n
      ∧ sortByScoreDesc l = l :=
  ⟨rfl, sortByScoreDesc_const h⟩

/-- C3 amended witness at a concrete all-tied score list. -/
theorem C3_amended_witness :
    generate_recommendations dbTieA exRows0 1 10
        = generate_recommendations dbTieA exRows0 1 10
      ∧ sortByScoreDesc [(5, 0), (4, 0)] = [(5, 0), (4, 0)] :=
  C3_amended dbTieA exRows0 1 10 [(5, 0), (4, 0)] 0
    (by with_unfolding_all decide)

/-- C4: for a user with zero interaction records, generateRecommendations
returns exactly the popularity fallback: entries carry relevance score 1/2,
the reason names the book\x27s total interaction count (all users, all
kinds), and the list is ordered by that count, descending. -/
theorem C4_popular_fallback (db : DB) (rows : Nat → List ℚ) (u : Nat)
    (n : Int) (h : userInteractions db u = []) :
    generate_recommendations db rows u n = get_popular_books db n ∧
      ∀ l, get_popular_books db n = some l →
        (∀ r ∈ l, r.relevance_score = 1/2 ∧
          r.recommendation_reason
            = "Popular book with " ++ toString (popCount db r.book)
              ++ " interactions") ∧
        l.Pairwise (fun r s => popCount db s.book ≤ popCount db r.book) := by
  refine ⟨gen_recs_no_interactions h, ?_⟩
  intro l hl
  constructor
  · intro r hr
    obtain ⟨b, hbbooks, hbav, hrbook, hsc, hrsn⟩ := mem_get_popular hl hr
    exact ⟨hsc, by rw [hrsn, hrbook]⟩
  · exact get_popular_sorted hl

/-- C4 witness: Scenario A shaped snapshot (three available books with 2, 1
and 0 interactions), requesting user 7 with no interactions. -/
theorem C4_witness :
    userInteractions dbPop 7 = [] ∧
      (generate_recommendations dbPop exRows0 7 10 = get_popular_books dbPop 10 ∧
        ∀ l, get_popular_books dbPop 10 = some l →
          (∀ r ∈ l, r.relevance_score = 1/2 ∧
            r.recommendation_reason
              = "Popular book with " ++ toString (popCount dbPop r.book)
                ++ " interactions") ∧
          l.Pairwise (fun r s => popCount dbPop s.book ≤ popCount dbPop r.book)) :=
  ⟨by with_unfolding_all decide,
   C4_popular_fallback dbPop exRows0 7 10 (by with_unfolding_all decide)⟩

/-- C5: on the personalised path every returned entry\x27s relevance score
is the rounded blend 0.4 * category weight + 0.3 * author weight + 0.3 *
mean liked-book similarity, evaluated at the entry\x27s own book. -/
theorem C5_score_formula (db : DB) (rows : Nat → List ℚ) (u : Nat) (n : Int)
    (p : UserProfile) (l : List Recommendation) (r : Recommendation)
    (hnd : (db.books.map Book.id).Nodup)
    (hp : build_user_profile db u = some p)
    (hids : (fitModel db rows).book_ids.isEmpty = false)
    (hl : generate_recommendations db rows u n = some l) (hr : r ∈ l) :
    r.relevance_score = round3
      ((p.categories.lookup r.book.category).getD 0 * 0.4
        + (p.authors.lookup r.book.author).getD 0 * 0.3
        + user_content_similarity db rows u r.book.id * 0.3) := by
  rw [gen_recs_personalized hp hids] at hl
  rw [← Option.some_inj.1 hl] at hr
  obtain ⟨b, hbcand, hrbook, hsc, hrsn⟩ := mem_personalized hnd hr
  rw [hsc]
  unfold scoreFor
  rw [hrbook]

/-- C5 witness: Scenario B.  The single like on a Fiction book gives the
profile category weight 1 on Fiction, and the Fiction candidate\x27s score
is exactly 0.4 * 1 = 2/5 (author weight 0, zero-similarity rows). -/
theorem C5_witness :
    build_user_profile dbFiction 1 = some profFiction ∧
      exRecFiction.relevance_score = round3
        ((profFiction.categories.lookup exRecFiction.book.category).getD 0 * 0.4
          + (profFiction.authors.lookup exRecFiction.book.author).getD 0 * 0.3
          + user_content_similarity dbFiction exRows0 1 exRecFiction.book.id * 0.3) ∧
      exRecFiction.relevance_score = 2/5 :=
  ⟨by with_unfolding_all decide,
   C5_score_formula dbFiction exRows0 1 10 profFiction [exRecFiction]
     exRecFiction (by with_unfolding_all decide) (by with_unfolding_all decide)
     (by with_unfolding_all decide) (by with_unfolding_all decide) (by simp),
   by with_unfolding_all decide⟩

/-- C6: content similarity is symmetric — for two distinct books in the
current corpus, contentSimilarity(a,[b])[b] equals contentSimilarity(b,[a])[a]
exactly (the underlying cosine similarity matrix entry is a symmetric dot
product of the two document rows). -/
theorem C6_similarity_symmetric (db : DB) (rows : Nat → List ℚ) (a b : Nat)
    (ha : a ∈ (fitModel db rows).book_ids)
    (hb : b ∈ (fitModel db rows).book_ids) (hne : a ≠ b) :
    (calculate_content_similarity (fitModel db rows) a [b]).lookup b
      = (calculate_content_similarity (fitModel db rows) b [a]).lookup a := by
  rw [calcSims_pair _ a b ha hb (Ne.symm hne),
    calcSims_pair _ b a hb ha hne]
  rw [lookup_cons, lookup_cons]
  simp only [if_pos rfl]
  unfold simEntry
  rw [dotQ_comm]
  simp

/-- C6 witness: two available books, identical unit rows — the symmetric
similarity lookups agree (both are 1). -/
theorem C6_witness :
    (calculate_content_similarity (fitModel dbTwo exRows1) 1 [2]).lookup 2
      = (calculate_content_similarity (fitModel dbTwo exRows1) 2 [1]).lookup 1 :=
  C6_similarity_symmetric dbTwo exRows1 1 2 (by with_unfolding_all decide)
    (by with_unfolding_all decide) (by decide)

/-- C7: the mapping returned by contentSimilarity(x, candidates) never
contains the reference book x as a key, for every model state and candidate
list (in particular lists containing x itself). -/
theorem C7_self_exclusion (m : Model) (x : Nat) (targets : List Nat) :
    (calculate_content_similarity m x targets).lookup x = none ∧
      x ∉ (calculate_content_similarity m x targets).map Prod.fst :=
  ⟨calcSims_lookup_self m x targets,
   not_mem_keys_of_lookup_none (calcSims_lookup_self m x targets)⟩

/-- C8: every relevance score returned by generateRecommendations and every
similarity value produced by contentSimilarity lies in [0, 1], given the
TF-IDF row facts sklearn guarantees (non-negative entries, row norm at most
one) and primary-key uniqueness. -/
theorem C8_score_bounds (db : DB) (rows : Nat → List ℚ) (u : Nat) (n : Int)
    (l : List Recommendation) (hrows : rowBounds rows)
    (hnd : (db.books.map Book.id).Nodup)
    (hl : generate_recommendations db rows u n = some l) :
    (∀ r ∈ l, 0 ≤ r.relevance_score ∧ r.relevance_score ≤ 1) ∧
      (∀ x targets, ∀ p ∈ calculate_content_similarity (fitModel db rows) x
        targets, 0 ≤ p.2 ∧ p.2 ≤ 1) := by
  constructor
  · intro r hr
    unfold generate_recommendations at hl
    cases hb : build_user_profile db u with
    | none =>
        simp only [hb] at hl
        obtain ⟨b, hbbooks, hbav, hrbook, hsc, hrsn⟩ := mem_get_popular hl hr
        rw [hsc]
        norm_num
    | some p =>
        simp only [hb] at hl
        cases hids : (fitModel db rows).book_ids.isEmpty with
        | true =>
            simp only [hids, if_true] at hl
            obtain ⟨b, hbbooks, hbav, hrbook, hsc, hrsn⟩ :=
              mem_get_popular hl hr
            rw [hsc]
            norm_num
        | false =>
            simp only [hids, Bool.false_eq_true, if_false] at hl
            rw [← Option.some_inj.1 hl] at hr
            obtain ⟨b, hbcand, hrbook, hsc, hrsn⟩ := mem_personalized hnd hr
            rw [hsc]
            obtain ⟨hs0, hs1⟩ := scoreFor_bounds rows hrows hb b
            exact ⟨round3_nonneg hs0, round3_le_one hs1⟩
  · intro x targets p hp
    exact calcSims_bounds hrows x targets p hp

/-- C8 witness: concrete bounds instance on the Scenario B run. -/
theorem C8_witness :
    (∀ r ∈ [exRecFiction], 0 ≤ r.relevance_score ∧ r.relevance_score ≤ 1) ∧
      (∀ x targets, ∀ p ∈ calculate_content_similarity
        (fitModel dbFiction exRows0) x targets, 0 ≤ p.2 ∧ p.2 ≤ 1) :=
  C8_score_bounds dbFiction exRows0 1 10 [exRecFiction]
    (by
      intro i
      refine ⟨by simp [exRows0], ?_⟩
      rw [show exRows0 i = [] from rfl, dotQ_nil]
      norm_num)
    (by with_unfolding_all decide) (by with_unfolding_all decide)

/-- C9: an empty corpus (no available books) is a valid state: every
similarity query returns the empty mapping and generateRecommendations
returns the empty list for every user and every non-negative count. -/
theorem C9_empty_corpus (db : DB) (rows : Nat → List ℚ)
    (h : db.books.filter (fun b => b.available) = []) :
    (∀ x targets,
        calculate_content_similarity (fitModel db rows) x targets = []) ∧
      (∀ u n, 0 ≤ n → generate_recommendations db rows u n = some []) := by
  have hids : (fitModel db rows).book_ids = [] := fitModel_empty rows h
  constructor
  · intro x targets
    exact calcSims_empty_corpus hids x targets
  · intro u n hn
    have hpop := get_popular_books_no_avail h hn
    unfold generate_recommendations
    cases hb : build_user_profile db u with
    | none =>
        simp only [hb]
        exact hpop
    | some p =>
        have hemp : (fitModel db rows).book_ids.isEmpty = true := by
          rw [hids]
          rfl
        simp only [hb, hemp, if_true]
        exact hpop

/-- C9 witness: a snapshot whose single book is unavailable. -/
theorem C9_witness :
    calculate_content_similarity (fitModel dbNoCorpus exRows0) 1 [1] = [] ∧
      generate_recommendations dbNoCorpus exRows0 1 0 = some [] := by
  have h := C9_empty_corpus dbNoCorpus exRows0 (by with_unfolding_all decide)
  exact ⟨h.1 1 [1], h.2 1 0 (by norm_num)⟩

/-- C10: when every interaction record of a user references a book that no
longer exists, buildUserProfile still succeeds with empty category and
author maps but the full interaction count; the profile is non-empty, so
whenever the corpus is non-empty generateRecommendations runs the
personalised path (not the cold-start popularity fallback). -/
theorem C10_missing_books (db : DB) (rows : Nat → List ℚ) (u : Nat) (n : Int)
    (hne2 : userInteractions db u ≠ [])
    (hmiss : ∀ i ∈ userInteractions db u,
      db.books.find? (fun b => b.id == i.book_id) = none) :
    build_user_profile db u
        = some ⟨[], [], (userInteractions db u).length⟩ ∧
      ((fitModel db rows).book_ids.isEmpty = false →
        generate_recommendations db rows u n
          = some (personalized db rows u n
              ⟨[], [], (userInteractions db u).length⟩)) := by
  have hfold := foldl_profileStep_missing db (userInteractions db u)
    ([], []) hmiss
  have hie : (userInteractions db u).isEmpty = false := by
    rw [← Bool.not_eq_true]
    intro hc
    exact hne2 (List.isEmpty_iff.1 hc)
  have hprof : build_user_profile db u
      = some ⟨[], [], (userInteractions db u).length⟩ := by
    unfold build_user_profile
    simp [hie, hfold, normalizeTally]
  exact ⟨hprof, fun hids => gen_recs_personalized hprof hids⟩

/-- C10 witness: dbMissing, whose only interaction references deleted book
99; the profile keeps interaction_count 1 with empty weight maps and the
call runs the personalised path. -/
theorem C10_witness :
    build_user_profile dbMissing 1
        = some ⟨[], [], (userInteractions dbMissing 1).length⟩ ∧
      generate_recommendations dbMissing exRows0 1 3
        = some (personalized dbMissing exRows0 1 3
            ⟨[], [], (userInteractions dbMissing 1).length⟩) := by
  have h := C10_missing_books dbMissing exRows0 1 3
    (by with_unfolding_all decide) (by with_unfolding_all decide)
  exact ⟨h.1, h.2 (by with_unfolding_all decide)⟩

end OBX
